import Mathlib

/-
Shallow embedding of the intercompany chaincode
(src/intercomany/intercompanyA.go) over the flat key-value world state.

Modelling conventions, matching the source and the data model of the spec:
* The world state is a map from string keys to decoded stored values.  A
  stored value is either a raw string, a marshalled account record, a
  marshalled license record, or a marshalled list of keys (an index).
* Monetary and quantity fields are modelled as exact rationals (the type
  `Qd`: integer numerator over a positive natural denominator, compared and
  ordered by cross-multiplication).  The source stores them with
  strconv.FormatFloat(x, 'E', -1, 64) and re-reads them with
  strconv.ParseFloat, a round-trip-lossless encoding, so record fields carry
  the numeric value directly; `fmtQ` models the textual form where the
  source uses it as a key or as a string argument, and `parseQ` models
  ParseFloat of an argument string (ParseFloat returns 0 alongside its
  error, and the source frequently discards the error, which `parseQD`
  models).
* stub.GetState can fail at the transport level; the oracle `rf` records
  which keys fail to read.  An absent key reads successfully as `none`
  (Fabric returns nil bytes and no error).  Puts and deletes are modelled as
  always succeeding; the source's put-error branches are then never taken.
* A Go runtime panic (string slicing out of range, argument index out of
  range) is the `Resp.panic` outcome; a panicking invocation commits
  nothing.
* `today` stands for time.Now().Format("01-02-2006").
-/

namespace Intercompany

/-! ### Exact decimal arithmetic

`Qd` is an exact rational: the value `n / d` with `0 < d`.  Values are not
kept in lowest terms; `Qd.eqv` and `Qd.lt` compare by cross-multiplication,
which is how the embedded operations test Go float equality and order. -/

/-- An exact rational amount: numerator over a positive denominator. -/
structure Qd where
  n : Int
  d : Nat
  dpos : 0 < d

instance : DecidableEq Qd := fun a b =>
  if h : a.n = b.n ∧ a.d = b.d then
    isTrue (by cases a; cases b; simp_all)
  else
    isFalse (by intro hab; cases a; cases b; cases hab; simp_all)

/-- Embed an integer. -/
def Qd.ofInt (n : Int) : Qd := ⟨n, 1, Nat.one_pos⟩

/-- Addition (exact; Go adds float64 values, round-trip encoded). -/
def Qd.add (a b : Qd) : Qd :=
  ⟨a.n * (b.d : Int) + b.n * (a.d : Int), a.d * b.d, Nat.mul_pos a.dpos b.dpos⟩

/-- Negation. -/
def Qd.neg (a : Qd) : Qd := ⟨-a.n, a.d, a.dpos⟩

/-- Subtraction. -/
def Qd.sub (a b : Qd) : Qd := Qd.add a (Qd.neg b)

/-- Multiplication. -/
def Qd.mul (a b : Qd) : Qd := ⟨a.n * b.n, a.d * b.d, Nat.mul_pos a.dpos b.dpos⟩

/-- Division by a positive integer constant (the source divides by the
business constants 12 and 60 only). -/
def Qd.divNat (a : Qd) (k : Nat) : Qd :=
  if h : 0 < k then ⟨a.n, a.d * k, Nat.mul_pos a.dpos h⟩ else a

instance : Add Qd := ⟨Qd.add⟩
instance : Neg Qd := ⟨Qd.neg⟩
instance : Sub Qd := ⟨Qd.sub⟩
instance : Mul Qd := ⟨Qd.mul⟩

/-- Value equality (`==` on Go floats): cross-multiplication. -/
def Qd.eqv (a b : Qd) : Prop := a.n * (b.d : Int) = b.n * (a.d : Int)

instance (a b : Qd) : Decidable (Qd.eqv a b) := by unfold Qd.eqv; infer_instance

/-- Value order (`<` on Go floats): cross-multiplication. -/
def Qd.lt (a b : Qd) : Prop := a.n * (b.d : Int) < b.n * (a.d : Int)

instance (a b : Qd) : Decidable (Qd.lt a b) := by unfold Qd.lt; infer_instance

/-- The zero amount. -/
def Qd.zero : Qd := Qd.ofInt 0

/-! ### The data model -/

/-- License record, from the `License` struct of the source. -/
structure License where
  licenseKey : String
  licensePartNo : String
  baseEntityCode : String
  quantity : Qd
  licensePrice : Qd
  supportFee : Qd
  licenseStartDate : String
  licenseEndDate : String
  supportStartDate : String
  supportEndDate : String
  currency : String
  lastSettlementDate : String
deriving DecidableEq

/-- Account record, from the `IntercompanyAccount` struct of the source. -/
structure IntercompanyAccount where
  accountKey : String
  dueToEntityCode : String
  dueFromEntityCode : String
  dueToEntityName : String
  dueFromEntityName : String
  currency : String
  period : String
  openingBalance : Qd
  activity : Qd
  periodToDateBalance : Qd
  accountNo : String
  accountName : String
deriving DecidableEq

/-- Zero value of the `License` struct (what json.Unmarshal leaves when the
bytes do not describe a license; unparsable numeric fields read as 0 because
the source discards the ParseFloat error). -/
def zeroLicense : License :=
  { licenseKey := "", licensePartNo := "", baseEntityCode := "",
    quantity := Qd.zero, licensePrice := Qd.zero, supportFee := Qd.zero,
    licenseStartDate := "", licenseEndDate := "", supportStartDate := "",
    supportEndDate := "", currency := "", lastSettlementDate := "" }

/-- Zero value of the `IntercompanyAccount` struct. -/
def zeroAccount : IntercompanyAccount :=
  { accountKey := "", dueToEntityCode := "", dueFromEntityCode := "",
    dueToEntityName := "", dueFromEntityName := "", currency := "",
    period := "", openingBalance := Qd.zero, activity := Qd.zero,
    periodToDateBalance := Qd.zero, accountNo := "", accountName := "" }

/-- A decoded value stored under a key of the world state. -/
inductive Val where
  | str (s : String)
  | acc (a : IntercompanyAccount)
  | lic (l : License)
  | idx (ks : List String)
deriving DecidableEq

/-- The world state: a flat key-value store. -/
def Store : Type := String → Option Val

/-- stub.PutState. -/
def putState (k : String) (v : Val) (s : Store) : Store :=
  fun k2 => if k2 = k then some v else s k2

/-- stub.DelState. -/
def delState (k : String) (s : Store) : Store :=
  fun k2 => if k2 = k then none else s k2

/-- Outcome of an invocation: shim.Success, shim.Error, or a Go panic. -/
inductive Resp where
  | success
  | error (msg : String)
  | panic
deriving DecidableEq

/-- stub.GetState with the read-failure oracle `rf`: `none` is a transport
error, `some v` a successful read of the (possibly absent) value. -/
def getState (rf : String → Bool) (s : Store) (k : String) : Option (Option Val) :=
  if rf k then none else some (s k)

/-- json.Unmarshal of stored bytes into the `IntercompanyAccount` struct:
only bytes that are an account record populate it; anything else (absent
key, other record shapes) leaves the zero struct. -/
def unmarshalAcc : Option Val → IntercompanyAccount
  | some (.acc a) => a
  | _ => zeroAccount

/-- json.Unmarshal of stored bytes into the `License` struct. -/
def unmarshalLic : Option Val → License
  | some (.lic l) => l
  | _ => zeroLicense

/-- json.Unmarshal of stored bytes into a `[]string`: anything that is not a
marshalled list (including an absent key) leaves the nil slice. -/
def unmarshalIdx : Option Val → List String
  | some (.idx ks) => ks
  | _ => []

def LicenseIndexStr : String := "_licenseindex"
def AccountIndexStr : String := "_accountindex"

/-! ### Numeric strings

`natOfChars`/`parseIntGo` model strconv.ParseInt base 10 (value 0 returned on
a syntax error, as Go does), `parseQ` models strconv.ParseFloat, and `fmtQ`
models strconv.FormatFloat(x, 'E', -1, 64): shortest mantissa, scientific
notation, exponent of at least two digits. -/

/-- Numeric value of a digit character. -/
def charDigit (c : Char) : Nat := c.toNat - 48

/-- Base-10 value of a most-significant-first digit string. -/
def natOfChars (cs : List Char) : Nat :=
  cs.foldl (fun a c => a * 10 + charDigit c) 0

/-- All characters are decimal digits. -/
def allDigits (cs : List Char) : Bool := cs.all fun c => c.isDigit

/-- strconv.ParseInt(s, 10, 64) with the error discarded: 0 on syntax error. -/
def parseIntGo (s : String) : Int :=
  match s.data with
  | '-' :: cs => if allDigits cs && !cs.isEmpty then -(natOfChars cs : Int) else 0
  | '+' :: cs => if allDigits cs && !cs.isEmpty then (natOfChars cs : Int) else 0
  | cs => if allDigits cs && !cs.isEmpty then (natOfChars cs : Int) else 0

/-- Split a character list into its leading run of digits and the rest. -/
def splitDigits : List Char → List Char × List Char
  | [] => ([], [])
  | c :: cs =>
    if c.isDigit then
      let p := splitDigits cs
      (c :: p.1, p.2)
    else ([], c :: cs)

/-- Apply a trailing exponent part (empty, or `e`/`E` then an optionally
signed digit string) to the mantissa `m`. -/
def parseExp (m : Qd) : List Char → Option Qd
  | [] => some m
  | c :: cs =>
    if c = 'e' ∨ c = 'E' then
      match cs with
      | '-' :: ds =>
        if allDigits ds && !ds.isEmpty then
          some ⟨m.n, m.d * 10 ^ natOfChars ds,
            Nat.mul_pos m.dpos (Nat.pos_pow_of_pos _ (by norm_num))⟩
        else none
      | '+' :: ds =>
        if allDigits ds && !ds.isEmpty then
          some ⟨m.n * (10 : Int) ^ natOfChars ds, m.d, m.dpos⟩
        else none
      | ds =>
        if allDigits ds && !ds.isEmpty then
          some ⟨m.n * (10 : Int) ^ natOfChars ds, m.d, m.dpos⟩
        else none
    else none

/-- Parse an unsigned decimal: digits, optional fraction, optional exponent. -/
def parseUnsigned (cs : List Char) : Option Qd :=
  let p := splitDigits cs
  match p.2 with
  | '.' :: r2 =>
    let q := splitDigits r2
    if p.1.isEmpty && q.1.isEmpty then none
    else
      let mant : Qd :=
        ⟨(natOfChars p.1 : Int) * (10 : Int) ^ q.1.length + (natOfChars q.1 : Int),
          10 ^ q.1.length, Nat.pos_pow_of_pos _ (by norm_num)⟩
      parseExp mant q.2
  | r => if p.1.isEmpty then none else parseExp (Qd.ofInt (natOfChars p.1)) r

/-- strconv.ParseFloat over exact rationals. -/
def parseQ (s : String) : Option Qd :=
  match s.data with
  | '-' :: cs => (parseUnsigned cs).map Qd.neg
  | '+' :: cs => parseUnsigned cs
  | cs => parseUnsigned cs

/-- strconv.ParseFloat with the error discarded, which yields 0. -/
def parseQD (s : String) : Qd := (parseQ s).getD Qd.zero

/-- Fuel-driven multiplicity count; `n` itself always suffices as fuel. -/
def factorCountAux (p : Nat) : Nat → Nat → Nat
  | _, 0 => 0
  | n, fuel + 1 =>
    if 1 < p ∧ 0 < n ∧ n % p = 0 then factorCountAux p (n / p) fuel + 1 else 0

/-- Multiplicity of the factor `p` in `n` (0 for `n = 0` or `p ≤ 1`). -/
def factorCount (p : Nat) (n : Nat) : Nat := factorCountAux p n n

/-- Fuel-driven little-endian digit characters; `n` itself suffices as fuel. -/
def natDigitsAux : Nat → Nat → List Char
  | _, 0 => []
  | n, fuel + 1 =>
    if n = 0 then [] else Nat.digitChar (n % 10) :: natDigitsAux (n / 10) fuel

/-- Most-significant-first digit characters of `n` (empty for 0). -/
def natDigitChars (n : Nat) : List Char := (natDigitsAux n n).reverse

/-- Decimal string of a natural number. -/
def natStr (n : Nat) : String :=
  if n = 0 then "0" else String.mk (natDigitChars n)

/-- Decimal string padded to at least two digits. -/
def pad2str (n : Nat) : String :=
  if n < 10 then "0" ++ natStr n else natStr n

/-- Signed exponent suffix of FormatFloat's 'E' form. -/
def expStr (e : Int) : String :=
  (if e < 0 then "-" else "+") ++ pad2str e.natAbs

/-- strconv.FormatInt(i, 10) / strconv.Itoa. -/
def intStr (i : Int) : String :=
  if i < 0 then "-" ++ natStr i.natAbs else natStr i.natAbs

/-- Does strconv.Atoi succeed on `s`? -/
def atoiOk (s : String) : Bool :=
  match s.data with
  | '-' :: cs => allDigits cs && !cs.isEmpty
  | '+' :: cs => allDigits cs && !cs.isEmpty
  | cs => allDigits cs && !cs.isEmpty

/-- Mantissa text: leading digit, then a point and the remaining digits. -/
def mantStr (ds : List Char) : String :=
  match ds with
  | [] => "0"
  | [c] => String.mk [c]
  | c :: rest => String.mk [c] ++ "." ++ String.mk rest

/-- Scientific notation `d.dddE±xx` for the significand `m`, where the
value is `m * 10 ^ t / 10 ^ k`. -/
def sciStr (m k t : Nat) : String :=
  mantStr (natDigitChars m) ++ "E" ++
    expStr ((((natDigitChars m).length : Int) - 1 + (t : Int)) - (k : Int))

/-- strconv.FormatFloat(x, 'E', -1, 64): shortest scientific form.  Values
without a finite decimal expansion (never produced by the float64 source)
fall back to a marker string. -/
def fmtQ (q : Qd) : String :=
  if q.n = 0 then "0E+00"
  else
    let sgn := if q.n < 0 then "-" else ""
    let g := Nat.gcd q.n.natAbs q.d
    let nn := q.n.natAbs / g
    let d := q.d / g
    let a2 := factorCount 2 d
    let a5 := factorCount 5 d
    if d = 2 ^ a2 * 5 ^ a5 then
      let k := if a2 ≤ a5 then a5 else a2
      let n := nn * (10 ^ k / d)
      let t := factorCount 10 n
      sgn ++ sciStr (n / 10 ^ t) k t
    else sgn ++ "UNREPRESENTABLE"

/-! ### Dates -/

/-- Go string slicing `s[a:b]` (character-level; all keys and dates in play
are ASCII): `none` models the runtime panic on an out-of-range slice. -/
def goSlice (s : String) (a b : Nat) : Option String :=
  if a ≤ b ∧ b ≤ s.data.length then some (String.mk ((s.data.drop a).take (b - a)))
  else none

/-- Model of `monthDiff` in the source: month from characters 0-2 and year from
characters 6-10 of each `MM-DD-YYYY` string, difference in months.  `none`
models the panic when a date string is too short to slice. -/
def monthDiff (dateA dateB : String) : Option Int :=
  match goSlice dateA 0 2, goSlice dateB 0 2, goSlice dateA 6 10, goSlice dateB 6 10 with
  | some ma, some mb, some ya, some yb =>
    some ((parseIntGo yb - parseIntGo ya) * 12 + parseIntGo mb - parseIntGo ma)
  | _, _, _, _ => none

/-! ### The operations

Each operation takes the read-failure oracle `rf`, the current world state
and the string argument list of the invocation, and returns the response
together with the world state holding every put/delete it issued. -/

/-- Model of `create_account` (intercompanyA.go lines 174-241): derive the key from
dueTo/dueFrom/accountNo, parse the two amounts, reject an existing record,
persist the record, then append the key to the account index. -/
def create_account (rf : String → Bool) (s : Store) (args : List String) :
    Resp × Store :=
  match args with
  | [a0, a1, a2, a3, a4, a5, a6, a7, a8, a9] =>
    let accountKey := a0 ++ "_" ++ a1 ++ "_" ++ a8
    match parseQ a6 with
    | none => (.error "7th argument must be a numeric string", s)
    | some openingBalance =>
      match parseQ a7 with
      | none => (.error "8th argument must be a numeric string", s)
      | some activity =>
        let periodToDateBalance := openingBalance + activity
        match getState rf s accountKey with
        | none => (.error "Failed to get account key", s)
        | some v =>
          let res := unmarshalAcc v
          if res.accountKey = accountKey then
            (.error "This account arleady exists", s)
          else
            let newAcc : IntercompanyAccount :=
              { accountKey := accountKey, dueToEntityCode := a0,
                dueFromEntityCode := a1, dueToEntityName := a2,
                dueFromEntityName := a3, currency := a4, period := a5,
                openingBalance := openingBalance, activity := activity,
                periodToDateBalance := periodToDateBalance,
                accountNo := a8, accountName := a9 }
            let s1 := putState accountKey (.acc newAcc) s
            match getState rf s1 AccountIndexStr with
            | none => (.error "Failed to get user index", s1)
            | some iv =>
              let accountIndex := unmarshalIdx iv
              (.success,
                putState AccountIndexStr (.idx (accountIndex ++ [accountKey])) s1)
  | _ => (.error "Incorrect number of arguments. Expecting 10", s)

/-- Model of `create_license` (lines 246-311): derive the key from partNo/entityCode,
parse the three amounts, reject an existing record, persist the record, then
append the key to the license index. -/
def create_license (rf : String → Bool) (s : Store) (args : List String) :
    Resp × Store :=
  match args with
  | [a0, a1, a2, a3, a4, a5, a6, a7, a8, a9, a10] =>
    let licenseKey := a0 ++ "_" ++ a1
    match parseQ a2 with
    | none => (.error "3rd argument must be a numeric string", s)
    | some quantity =>
      match parseQ a3 with
      | none => (.error "4th argument must be a numeric string", s)
      | some licensePrice =>
        match parseQ a4 with
        | none => (.error "5th argument must be a numeric string", s)
        | some supportFee =>
          match getState rf s licenseKey with
          | none => (.error "Failed to get license", s)
          | some v =>
            let res := unmarshalLic v
            if res.licenseKey = licenseKey then
              (.error "This license arleady exists", s)
            else
              let newLic : License :=
                { licenseKey := licenseKey, licensePartNo := a0,
                  baseEntityCode := a1, quantity := quantity,
                  licensePrice := licensePrice, supportFee := supportFee,
                  licenseStartDate := a5, licenseEndDate := a6,
                  supportStartDate := a7, supportEndDate := a8,
                  currency := a9, lastSettlementDate := a10 }
              let s1 := putState licenseKey (.lic newLic) s
              match getState rf s1 LicenseIndexStr with
              | none => (.error "Failed to get license index", s1)
              | some iv =>
                let licenseIndex := unmarshalIdx iv
                (.success,
                  putState LicenseIndexStr (.idx (licenseIndex ++ [licenseKey])) s1)
  | _ => (.error "Incorrect number of arguments. Expecting 11", s)

/-- Model of `addActivityToAccount` (lines 434-468): read the account at args[0], add
the amount to activity and periodToDateBalance, and persist — the source
issues the put against args[1], the amount argument, not the account key. -/
def addActivityToAccount (rf : String → Bool) (s : Store) (args : List String) :
    Resp × Store :=
  match args with
  | a0 :: a1 :: _ =>
    match getState rf s a0 with
    | none => (.error "Failed to get the account", s)
    | some v =>
      let resAccount := unmarshalAcc v
      let amount := parseQD a1
      let newActivity := resAccount.activity + amount
      let newPeriodToDateBalance := resAccount.periodToDateBalance + amount
      let resAccount2 :=
        { resAccount with activity := newActivity,
                          periodToDateBalance := newPeriodToDateBalance }
      (.success, putState a1 (.acc resAccount2) s)
  | _ => (.error "Incorrect number of arguments. Expecting 2", s)

/-- Model of `settle_bill` (lines 473-514): months elapsed since the license's last
settlement date, support charge `supportFee * quantity * months / 12` posted
through `addActivityToAccount`, then the license re-persisted with
lastSettlementDate = today. -/
def settle_bill (rf : String → Bool) (today : String) (s : Store)
    (args : List String) : Resp × Store :=
  match args with
  | a0 :: a1 :: _ =>
    match getState rf s a0 with
    | none => (.error "Failed to get the license", s)
    | some v =>
      let resLicense := unmarshalLic v
      match monthDiff resLicense.lastSettlementDate today with
      | none => (.panic, s)
      | some months =>
        let supportCharge :=
          ((resLicense.supportFee * resLicense.quantity).mul
            (Qd.ofInt months)).divNat 12
        let r1 := addActivityToAccount rf s [a1, fmtQ supportCharge]
        let resLicense2 := { resLicense with lastSettlementDate := today }
        (.success, putState a0 (.lic resLicense2) r1.2)
  | _ => (.error "Incorrect number of arguments. Expecting 2", s)

def monthsList : List String :=
  ["Jan", "Feb", "Mar", "Apr", "May", "Jun",
   "Jul", "Aug", "Sep", "Oct", "Nov", "Dec"]

/-- Model of `next_period` (lines 520-568): read the account at args[0], advance the
period label (month name from characters 0-3, year from characters 4-6 of
the period), move periodToDateBalance into openingBalance, reset activity to
0 — and persist with stub.PutState(args[1], ...), which panics when the
invocation carries a single argument. -/
def next_period (rf : String → Bool) (s : Store) (args : List String) :
    Resp × Store :=
  match args with
  | a0 :: rest =>
    match getState rf s a0 with
    | none => (.error "Failed to get the account", s)
    | some v =>
      let resAccount := unmarshalAcc v
      match goSlice resAccount.period 0 3, goSlice resAccount.period 4 6 with
      | some monthPeriod, some yearStr =>
        let yearPeriod := parseIntGo yearStr
        let mp : String × String :=
          match monthsList.indexOf? monthPeriod with
          | some i =>
            if i < 11 then
              ((monthsList.get? (i + 1)).getD "", intStr yearPeriod)
            else ("Jan", intStr (yearPeriod + 1))
          | none => ("", "")
        let newPeriod := mp.1 ++ "-" ++ mp.2
        let resAccount2 :=
          { resAccount with period := newPeriod,
                            openingBalance := resAccount.periodToDateBalance,
                            activity := Qd.zero }
        match rest.get? 0 with
        | none => (.panic, s)
        | some k1 => (.success, putState k1 (.acc resAccount2) s)
      | _, _ => (.panic, s)
  | [] => (.error "Incorrect number of arguments. Expecting 1", s)

/-- Remove the first occurrence of `k` (the index-removal loop of the
source, which breaks after the first match). -/
def removeFirst : List String → String → List String
  | [], _ => []
  | x :: xs, k => if x = k then xs else x :: removeFirst xs k

/-- Model of `delete_license` (lines 573-606): delete the key from the store, then
remove its first occurrence from the license index. -/
def delete_license (rf : String → Bool) (s : Store) (args : List String) :
    Resp × Store :=
  match args with
  | [licenseKey] =>
    let s1 := delState licenseKey s
    match getState rf s1 LicenseIndexStr with
    | none => (.error "Failed to get license index", s1)
    | some iv =>
      let licenseIndex := unmarshalIdx iv
      (.success,
        putState LicenseIndexStr (.idx (removeFirst licenseIndex licenseKey)) s1)
  | _ => (.error "Incorrect number of arguments. Expecting 1", s)

/-- Model of `transfer_license` (lines 316-415): load the source license, compute the
prorated license charge over a 60-month amortization, reject a transfer
larger than the held quantity, merge into or create the target license,
post the charge and its mirror, settle and then delete or decrement the
source license.  Responses of the nested calls are discarded by the source;
a Go panic inside a nested call unwinds the whole invocation. -/
def transfer_license (rf : String → Bool) (today : String) (s : Store)
    (args : List String) : Resp × Store :=
  match args with
  | [a0, a1, a2, a3, a4, a5, a6] =>
    match getState rf s a0 with
    | none => (.error "Failed to get the license", s)
    | some v =>
      let resLicenseA := unmarshalLic v
      let licensePartNo := resLicenseA.licensePartNo
      let originalQuantity := resLicenseA.quantity
      let licenseStartDate := resLicenseA.licenseStartDate
      match monthDiff licenseStartDate today with
      | none => (.panic, s)
      | some months =>
        let licensePrice := resLicenseA.licensePrice
        match parseQ a2 with
        | none => (.error "3rd argument must be a numeric string", s)
        | some transferedQuantity =>
          let licenseCharge :=
            ((transferedQuantity.mul (Qd.ofInt months)).mul licensePrice).divNat 60
          let negLicenseCharge := licenseCharge.neg
          let licenseChargeStr := fmtQ licenseCharge
          let negLicenseChargeStr := fmtQ negLicenseCharge
          if originalQuantity.lt transferedQuantity then
            (.error "No enough license to transfer", s)
          else
            let newLicenseKey := licensePartNo ++ "_" ++ a1
            match getState rf s newLicenseKey with
            | none => (.error "Failed to get license", s)
            | some vB =>
              let resLicenseB := unmarshalLic vB
              let branch : Resp × Store :=
                if resLicenseB.licenseKey = newLicenseKey then
                  let r1 := settle_bill rf today s [newLicenseKey, a6]
                  if r1.1 = .panic then (.panic, r1.2)
                  else
                    let resLicenseB2 :=
                      { resLicenseB with
                          quantity := resLicenseB.quantity + transferedQuantity,
                          lastSettlementDate := today }
                    let s2 := putState newLicenseKey (.lic resLicenseB2) r1.2
                    let r2 := addActivityToAccount rf s2 [a3, licenseChargeStr]
                    let r3 := addActivityToAccount rf r2.2 [a4, negLicenseChargeStr]
                    (.success, r3.2)
                else
                  let r1 := create_license rf s
                    [licensePartNo, a1, a2, fmtQ resLicenseA.licensePrice,
                     fmtQ resLicenseA.supportFee, resLicenseA.licenseStartDate,
                     resLicenseA.licenseEndDate, resLicenseA.supportStartDate,
                     resLicenseA.supportEndDate, resLicenseA.currency, today]
                  let r2 := addActivityToAccount rf r1.2 [a3, licenseChargeStr]
                  let r3 := addActivityToAccount rf r2.2 [a4, negLicenseChargeStr]
                  (.success, r3.2)
              if branch.1 = .panic then branch
              else
                let sB := branch.2
                if originalQuantity.eqv transferedQuantity then
                  let r4 := settle_bill rf today sB [a0, a5]
                  if r4.1 = .panic then (.panic, r4.2)
                  else
                    let r5 := delete_license rf r4.2 [a0]
                    (.success, r5.2)
                else
                  let r4 := settle_bill rf today sB [a0, a5]
                  if r4.1 = .panic then (.panic, r4.2)
                  else
                    let resLicenseA2 :=
                      { resLicenseA with
                          quantity := originalQuantity - transferedQuantity,
                          lastSettlementDate := today }
                    (.success, putState a0 (.lic resLicenseA2) r4.2)
  | _ => (.error "Incorrect number of arguments. Expecting 7", s)

/-- Model of `Init` (lines 75-110): parse the single integer argument, write it under
test_key, and reset both indexes to the empty list. -/
def chaincodeInit (_rf : String → Bool) (s : Store) (args : List String) :
    Resp × Store :=
  match args with
  | [a0] =>
    if atoiOk a0 then
      let s1 := putState "test_key" (.str (intStr (parseIntGo a0))) s
      let s2 := putState LicenseIndexStr (.idx []) s1
      (.success, putState AccountIndexStr (.idx []) s2)
    else (.error "Expecting an integer argument to Init() for instantiate", s)
  | _ => (.error "Incorrect number of arguments. Expecting a single integer", s)

/-! ### Concrete data for witnesses and counterexamples -/

/-- The no-failure read oracle. -/
def noRF : String → Bool := fun _ => false

/-- A license of the spec scenario: quantity 10, price 120, support fee 12,
created and last settled on 01-01-2024. -/
def licP1E1 : License :=
  { licenseKey := "P1_E1", licensePartNo := "P1", baseEntityCode := "E1",
    quantity := Qd.ofInt 10, licensePrice := Qd.ofInt 120,
    supportFee := Qd.ofInt 12, licenseStartDate := "01-01-2024",
    licenseEndDate := "01-01-2029", supportStartDate := "01-01-2024",
    supportEndDate := "01-01-2029", currency := "USD",
    lastSettlementDate := "01-01-2024" }

/-- An account with opening balance 1000 and no activity. -/
def acctACC : IntercompanyAccount :=
  { accountKey := "ACC", dueToEntityCode := "E1", dueFromEntityCode := "E2",
    dueToEntityName := "Alpha", dueFromEntityName := "Beta",
    currency := "USD", period := "Jan-2024",
    openingBalance := Qd.ofInt 1000, activity := Qd.zero,
    periodToDateBalance := Qd.ofInt 1000, accountNo := "100",
    accountName := "IC" }

/-- World state holding the scenario license and account. -/
def storeC4 : Store := fun k =>
  if k = "P1_E1" then some (.lic licP1E1)
  else if k = "ACC" then some (.acc acctACC)
  else none

/-- An account under its composite key, for exercising add_activity. -/
def acctE12 : IntercompanyAccount :=
  { acctACC with accountKey := "E1_E2_100" }

def storeC7 : Store := fun k =>
  if k = "E1_E2_100" then some (.acc acctE12) else none

/-- The account of the spec's period-rollover scenario: period Jan-2024,
opening balance 1000, activity 250, period-to-date balance 1250. -/
def acctC6 : IntercompanyAccount :=
  { acctACC with accountKey := "acct1", activity := Qd.ofInt 250,
                 periodToDateBalance := Qd.ofInt 1250 }

def storeC6 : Store := fun k =>
  if k = "acct1" then some (.acc acctC6) else none

/-- World state for the whole-quantity transfer: the scenario license and
its index entry. -/
def storeC3 : Store := fun k =>
  if k = "P1_E1" then some (.lic licP1E1)
  else if k = "_licenseindex" then some (.idx ["P1_E1"])
  else none

/-- The scenario license already settled today (06-01-2024). -/
def licSettled : License := { licP1E1 with lastSettlementDate := "06-01-2024" }

def storeC5 : Store := fun k =>
  if k = "P1_E1" then some (.lic licSettled)
  else if k = "ACC" then some (.acc acctACC)
  else none

/-- The empty world state. -/
def emptyStore : Store := fun _ => none

/-- Argument list creating the account "E1_E2_100" with openingBalance 1000
and activity 0. -/
def cArgs : List String :=
  ["E1", "E2", "Alpha", "Beta", "USD", "Jan-2024", "1000", "0", "100", "IC"]

/-- Read-failure oracle that fails exactly on the account index key. -/
def rfIndexFail : String → Bool := fun k => k == AccountIndexStr

/-- The four-step scenario for the index invariant: init, create the
account, delete_license of the account key, create the same account again. -/
def c9s1 : Store := (chaincodeInit noRF emptyStore ["42"]).2

def c9s2 : Store := (create_account noRF c9s1 cArgs).2

def c9s3 : Store := (delete_license noRF c9s2 ["E1_E2_100"]).2

def c9s4 : Store := (create_account noRF c9s3 cArgs).2

/-- A date string in the `MM-DD-YYYY` textual form. -/
def date2str (m d y : Nat) : String :=
  pad2str m ++ "-" ++ pad2str d ++ "-" ++ natStr y

/-! ### Account-operation sequences (for the balance invariant) -/

/-- One operation on a given account: an `add_activity` posting with an
amount string, or a `next_period` rollover (the account key being the
single argument each interface defines). -/
inductive AccountOp where
  | addAct (amt : String)
  | nextPer

/-- Only a successful invocation commits its writes; an error or panic
response invalidates the transaction and commits nothing. -/
def commitResp (s : Store) (r : Resp × Store) : Store :=
  if r.1 = .success then r.2 else s

/-- The committed effect of one account operation on account `k`. -/
def applyAccountOp (rf : String → Bool) (k : String) (s : Store) :
    AccountOp → Store
  | .addAct amt => commitResp s (addActivityToAccount rf s [k, amt])
  | .nextPer => commitResp s (next_period rf s [k])

/-- The committed effect of a sequence of account operations on `k`. -/
def runAccountOps (rf : String → Bool) (k : String) (s : Store)
    (ops : List AccountOp) : Store :=
  ops.foldl (applyAccountOp rf k) s

/-- The balance invariant of one account record:
`periodToDateBalance == openingBalance + activity` (as exact values). -/
def accInvariant (a : IntercompanyAccount) : Prop :=
  a.periodToDateBalance.eqv (a.openingBalance + a.activity)

/-- Every account record stored anywhere in the world state satisfies the
balance invariant. -/
def storeAccInvariant (s : Store) : Prop :=
  ∀ k a, s k = some (.acc a) → accInvariant a

instance (a : IntercompanyAccount) : Decidable (accInvariant a) := by
  unfold accInvariant; infer_instance

/-! ### Digit-string lemmas -/

theorem charDigit_digitChar {d : Nat} (hd : d < 10) :
    charDigit (Nat.digitChar d) = d := by
  interval_cases d <;> rfl

theorem isDigit_digitChar {d : Nat} (hd : d < 10) :
    (Nat.digitChar d).isDigit = true := by
  interval_cases d <;> rfl

theorem natDigitsAux_eq {n fuel : Nat} (h : n ≤ fuel) :
    natDigitsAux n fuel = (Nat.digits 10 n).map Nat.digitChar := by
  induction fuel generalizing n with
  | zero =>
    have hn : n = 0 := Nat.le_zero.mp h
    subst hn; simp [natDigitsAux, Nat.digits_zero]
  | succ fuel ih =>
    by_cases hn : n = 0
    · subst hn; simp [natDigitsAux]
    · have hpos : 0 < n := Nat.pos_of_ne_zero hn
      rw [natDigitsAux, if_neg hn, Nat.digits_def' (by norm_num : 1 < 10) hpos]
      have hdiv : n / 10 ≤ fuel := by
        have h1 : n / 10 < n := Nat.div_lt_self hpos (by norm_num)
        omega
      rw [ih hdiv, List.map_cons]

theorem natDigitChars_eq (n : Nat) :
    natDigitChars n = ((Nat.digits 10 n).map Nat.digitChar).reverse := by
  rw [natDigitChars, natDigitsAux_eq (Nat.le_refl n)]

theorem natOfChars_append_singleton (cs : List Char) (c : Char) :
    natOfChars (cs ++ [c]) = natOfChars cs * 10 + charDigit c := by
  simp [natOfChars, List.foldl_append]

theorem natOfChars_rev_map_digitChar {l : List Nat} (hl : ∀ d ∈ l, d < 10) :
    natOfChars ((l.map Nat.digitChar).reverse) = Nat.ofDigits 10 l := by
  induction l with
  | nil => rfl
  | cons d l ih =>
    have hd : d < 10 := hl d (List.mem_cons_self d l)
    have hl2 : ∀ x ∈ l, x < 10 := fun x hx => hl x (List.mem_cons_of_mem d hx)
    rw [List.map_cons, List.reverse_cons, natOfChars_append_singleton, ih hl2,
      charDigit_digitChar hd, Nat.ofDigits_cons]
    ring

theorem natOfChars_natDigitChars (n : Nat) :
    natOfChars (natDigitChars n) = n := by
  rw [natDigitChars_eq,
    natOfChars_rev_map_digitChar fun d hd => Nat.digits_lt_base (by norm_num) hd,
    Nat.ofDigits_digits]

theorem allDigits_natDigitChars (n : Nat) :
    allDigits (natDigitChars n) = true := by
  rw [natDigitChars_eq, allDigits, List.all_eq_true]
  intro c hc
  rw [List.mem_reverse, List.mem_map] at hc
  obtain ⟨d, hd, rfl⟩ := hc
  exact isDigit_digitChar (Nat.digits_lt_base (by norm_num) hd)

theorem natStr_data (n : Nat) :
    (natStr n).data = if n = 0 then ['0'] else natDigitChars n := by
  by_cases hn : n = 0
  · subst hn; rfl
  · rw [natStr, if_neg hn, if_neg hn]

theorem natOfChars_natStr (n : Nat) : natOfChars (natStr n).data = n := by
  rw [natStr_data]
  by_cases hn : n = 0
  · subst hn; rfl
  · rw [if_neg hn]; exact natOfChars_natDigitChars n

theorem allDigits_natStr (n : Nat) : allDigits (natStr n).data = true := by
  rw [natStr_data]
  by_cases hn : n = 0
  · subst hn; rfl
  · rw [if_neg hn]; exact allDigits_natDigitChars n

theorem natStr_data_ne_nil (n : Nat) : (natStr n).data ≠ [] := by
  rw [natStr_data]
  by_cases hn : n = 0
  · subst hn; simp
  · rw [if_neg hn, natDigitChars_eq]
    simp [Nat.digits_ne_nil_iff_ne_zero, hn]

theorem natDigitChars_length (n : Nat) (hn : n ≠ 0) :
    (natDigitChars n).length = Nat.log 10 n + 1 := by
  rw [natDigitChars_eq, List.length_reverse, List.length_map,
    Nat.digits_len 10 n (by norm_num) hn]

/-- Evaluation of `parseIntGo` on an all-digit nonempty string is its base-10 value. -/
theorem parseIntGo_digits {s : String} (h1 : allDigits s.data = true)
    (h2 : s.data ≠ []) : parseIntGo s = (natOfChars s.data : Int) := by
  rw [parseIntGo]
  split
  · next cs heq => rw [heq] at h1; simp [allDigits] at h1
  · next cs heq => rw [heq] at h1; simp [allDigits] at h1
  · next h3 h4 => simp [h1, h2]

theorem pad2str_data (n : Nat) (hn : n < 100) :
    (pad2str n).data.length = 2 ∧ allDigits (pad2str n).data = true ∧
      natOfChars (pad2str n).data = n := by
  by_cases h10 : n < 10
  · interval_cases n <;> exact ⟨by decide, by decide, by decide⟩
  · have hn0 : n ≠ 0 := by omega
    have hlog : Nat.log 10 n = 1 :=
      Nat.log_eq_of_pow_le_of_lt_pow (by simpa using Nat.not_lt.mp h10) (by simpa using hn)
    rw [pad2str, if_neg h10]
    refine ⟨?_, allDigits_natStr n, natOfChars_natStr n⟩
    rw [natStr_data, if_neg hn0, natDigitChars_length n hn0, hlog]

theorem natStr4_data (n : Nat) (h1 : 1000 ≤ n) (h2 : n < 10000) :
    (natStr n).data.length = 4 ∧ allDigits (natStr n).data = true ∧
      natOfChars (natStr n).data = n := by
  have hn0 : n ≠ 0 := by omega
  have hlog : Nat.log 10 n = 3 :=
    Nat.log_eq_of_pow_le_of_lt_pow (by simpa using h1) (by simpa using h2)
  refine ⟨?_, allDigits_natStr n, natOfChars_natStr n⟩
  rw [natStr_data, if_neg hn0, natDigitChars_length n hn0, hlog]

theorem list_len_two {l : List Char} (h : l.length = 2) : ∃ a b, l = [a, b] := by
  match l, h with
  | [a, b], _ => exact ⟨a, b, rfl⟩

theorem list_len_four {l : List Char} (h : l.length = 4) :
    ∃ a b c d, l = [a, b, c, d] := by
  match l, h with
  | [a, b, c, d], _ => exact ⟨a, b, c, d, rfl⟩

/-- Parsing a well-formed `MM-DD-YYYY` pair of dates, `monthDiff` computes
exactly the month-count difference `(yB - yA) * 12 + (mB - mA)`. -/
theorem monthDiff_date2str (mA dA yA mB dB yB : Nat) (hmA : mA < 100)
    (hdA : dA < 100) (hyA1 : 1000 ≤ yA) (hyA2 : yA < 10000) (hmB : mB < 100)
    (hdB : dB < 100) (hyB1 : 1000 ≤ yB) (hyB2 : yB < 10000) :
    monthDiff (date2str mA dA yA) (date2str mB dB yB) =
      some (((yB : Int) - (yA : Int)) * 12 + ((mB : Int) - (mA : Int))) := by
  obtain ⟨hlmA, hdgmA, hvmA⟩ := pad2str_data mA hmA
  obtain ⟨hldA, hdgdA, hvdA⟩ := pad2str_data dA hdA
  obtain ⟨hlyA, hdgyA, hvyA⟩ := natStr4_data yA hyA1 hyA2
  obtain ⟨hlmB, hdgmB, hvmB⟩ := pad2str_data mB hmB
  obtain ⟨hldB, hdgdB, hvdB⟩ := pad2str_data dB hdB
  obtain ⟨hlyB, hdgyB, hvyB⟩ := natStr4_data yB hyB1 hyB2
  obtain ⟨c0, c1, hcm⟩ := list_len_two hlmA
  obtain ⟨e0, e1, hcd⟩ := list_len_two hldA
  obtain ⟨f0, f1, f2, f3, hcy⟩ := list_len_four hlyA
  obtain ⟨g0, g1, hgm⟩ := list_len_two hlmB
  obtain ⟨i0, i1, hgd⟩ := list_len_two hldB
  obtain ⟨j0, j1, j2, j3, hgy⟩ := list_len_four hlyB
  have hdataA : (date2str mA dA yA).data =
      [c0, c1, '-', e0, e1, '-', f0, f1, f2, f3] := by
    simp [date2str, String.data_append, hcm, hcd, hcy]
  have hdataB : (date2str mB dB yB).data =
      [g0, g1, '-', i0, i1, '-', j0, j1, j2, j3] := by
    simp [date2str, String.data_append, hgm, hgd, hgy]
  have h1 : goSlice (date2str mA dA yA) 0 2 = some (String.mk [c0, c1]) := by
    unfold goSlice; rw [hdataA]; rfl
  have h2 : goSlice (date2str mB dB yB) 0 2 = some (String.mk [g0, g1]) := by
    unfold goSlice; rw [hdataB]; rfl
  have h3 : goSlice (date2str mA dA yA) 6 10 = some (String.mk [f0, f1, f2, f3]) := by
    unfold goSlice; rw [hdataA]; rfl
  have h4 : goSlice (date2str mB dB yB) 6 10 = some (String.mk [j0, j1, j2, j3]) := by
    unfold goSlice; rw [hdataB]; rfl
  have pm : ∀ (cs : List Char), allDigits cs = true → cs ≠ [] →
      parseIntGo (String.mk cs) = (natOfChars cs : Int) := by
    intro cs hd hne
    exact parseIntGo_digits (s := String.mk cs) hd hne
  unfold monthDiff
  rw [h1, h2, h3, h4]
  simp only
  rw [pm [c0, c1] (hcm ▸ hdgmA) (by simp), pm [g0, g1] (hgm ▸ hdgmB) (by simp),
    pm [f0, f1, f2, f3] (hcy ▸ hdgyA) (by simp),
    pm [j0, j1, j2, j3] (hgy ▸ hdgyB) (by simp)]
  have v1 : natOfChars [c0, c1] = mA := by rw [← hcm]; exact hvmA
  have v2 : natOfChars [g0, g1] = mB := by rw [← hgm]; exact hvmB
  have v3 : natOfChars [f0, f1, f2, f3] = yA := by rw [← hcy]; exact hvyA
  have v4 : natOfChars [j0, j1, j2, j3] = yB := by rw [← hgy]; exact hvyB
  rw [v1, v2, v3, v4]
  congr 1
  ring

example : date2str 1 1 2024 = "01-01-2024" := by decide
example : date2str 12 1 2023 = "12-01-2023" := by decide

/-! ### Small algebraic and operational lemmas -/

theorem Qd_ext {a b : Qd} (h1 : a.n = b.n) (h2 : a.d = b.d) : a = b := by
  cases a; cases b; simp_all

theorem Qd.add_n (a b : Qd) : (a + b).n = a.n * (b.d : Int) + b.n * (a.d : Int) := rfl

theorem Qd.add_d (a b : Qd) : (a + b).d = a.d * b.d := rfl

theorem Qd.mul_n (a b : Qd) : (a.mul b).n = a.n * b.n := rfl

theorem Qd.divNat_n (a : Qd) (k : Nat) : (a.divNat k).n = a.n := by
  unfold Qd.divNat; split <;> rfl

theorem Qd.add_ofInt_zero (a : Qd) : a + Qd.ofInt 0 = a := by
  refine Qd_ext ?_ ?_
  · rw [Qd.add_n]; simp [Qd.ofInt]
  · rw [Qd.add_d]; simp [Qd.ofInt]

theorem fmtQ_of_n_zero {q : Qd} (h : q.n = 0) : fmtQ q = "0E+00" := by
  unfold fmtQ; rw [if_pos h]

theorem goSlice_some {s : String} {a b : Nat} (h1 : a ≤ b)
    (h2 : b ≤ s.data.length) :
    goSlice s a b = some (String.mk ((s.data.drop a).take (b - a))) := by
  unfold goSlice; rw [if_pos ⟨h1, h2⟩]

/-- Applying `monthDiff` to a date and itself is 0 whenever the string is long
enough to slice. -/
theorem monthDiff_self {s : String} (h : 10 ≤ s.data.length) :
    monthDiff s s = some 0 := by
  unfold monthDiff
  rw [goSlice_some (by norm_num) (by omega), goSlice_some (by norm_num) h]
  simp only
  congr 1
  ring
example : monthDiff "12-01-2023" "01-01-2024" = some 1 := by decide
example : fmtQ (Qd.ofInt 50) = "5E+01" := by decide
example : fmtQ Qd.zero = "0E+00" := by decide
example : fmtQ (Qd.ofInt 1250) = "1.25E+03" := by decide
example : fmtQ ⟨-1, 2, by norm_num⟩ = "-5E-01" := by decide
example : fmtQ ⟨600, 12, by norm_num⟩ = "5E+01" := by decide
example : parseQ "0E+00" = some (Qd.ofInt 0) := by decide
example : (parseQD "1.25E+03").eqv (Qd.ofInt 1250) := by decide
example : (parseQD "250").eqv (Qd.ofInt 250) := by decide
example : (parseQD "-1.5").eqv ⟨-3, 2, by norm_num⟩ := by decide

/-- Both dates long enough to slice: `monthDiff` returns a value. -/
theorem monthDiff_isSome {a b : String} (ha : 10 ≤ a.data.length)
    (hb : 10 ≤ b.data.length) : ∃ m, monthDiff a b = some m := by
  unfold monthDiff
  rw [goSlice_some (by norm_num) (by omega : 2 ≤ a.data.length),
    goSlice_some (by norm_num) (by omega : 2 ≤ b.data.length),
    goSlice_some (by norm_num) ha, goSlice_some (by norm_num) hb]
  exact ⟨_, rfl⟩

theorem natStr_no_underscore (n : Nat) : '_' ∉ (natStr n).data := by
  intro hm
  have h := allDigits_natStr n
  rw [allDigits, List.all_eq_true] at h
  exact absurd (h '_' hm) (by decide)

theorem pad2str_no_underscore (n : Nat) : '_' ∉ (pad2str n).data := by
  unfold pad2str
  split
  · intro hm
    rw [String.data_append] at hm
    rcases List.mem_append.mp hm with hm | hm
    · exact absurd hm (by decide)
    · exact natStr_no_underscore n hm
  · exact natStr_no_underscore n

theorem expStr_no_underscore (e : Int) : '_' ∉ (expStr e).data := by
  unfold expStr
  intro hm
  rw [String.data_append] at hm
  rcases List.mem_append.mp hm with hm | hm
  · split at hm <;> exact absurd hm (by decide)
  · exact pad2str_no_underscore _ hm

theorem natDigitChars_no_underscore (m : Nat) : '_' ∉ natDigitChars m := by
  intro hm
  have h := allDigits_natDigitChars m
  rw [allDigits, List.all_eq_true] at h
  exact absurd (h '_' hm) (by decide)

/-- FormatFloat output never contains an underscore, while every entity key
of this chaincode does — so a misdirected put whose key is a formatted
number can never hit a license or account key or either index key. -/
theorem no_underscore_append {s t : String} (hs : '_' ∉ s.data)
    (ht : '_' ∉ t.data) : '_' ∉ (s ++ t).data := by
  intro hm
  rw [String.data_append] at hm
  rcases List.mem_append.mp hm with hm | hm
  · exact hs hm
  · exact ht hm

theorem mantStr_no_underscore (m : Nat) : '_' ∉ (mantStr (natDigitChars m)).data := by
  have hds := natDigitChars_no_underscore m
  cases hds2 : natDigitChars m with
  | nil => exact (by decide)
  | cons c rest =>
    rw [hds2] at hds
    cases rest with
    | nil =>
      show '_' ∉ (String.mk [c]).data
      intro hm
      have hc : '_' = c := List.mem_singleton.mp hm
      exact hds (hc ▸ List.mem_cons_self c _)
    | cons c2 rest2 =>
      show '_' ∉ (String.mk [c] ++ "." ++ String.mk (c2 :: rest2)).data
      intro hm
      simp only [String.data_append] at hm
      rcases List.mem_append.mp hm with hm | hm
      · rcases List.mem_append.mp hm with hm | hm
        · have hc : '_' = c := List.mem_singleton.mp hm
          exact hds (hc ▸ List.mem_cons_self c _)
        · exact absurd hm (by decide)
      · exact hds (List.mem_cons_of_mem c hm)

theorem sciStr_no_underscore (m k t : Nat) : '_' ∉ (sciStr m k t).data :=
  no_underscore_append
    (no_underscore_append (mantStr_no_underscore m) (by decide))
    (expStr_no_underscore _)

theorem no_underscore_ite {c : Prop} [Decidable c] {x y : String}
    (hx : '_' ∉ x.data) (hy : '_' ∉ y.data) :
    '_' ∉ (if c then x else y).data := by
  split
  · exact hx
  · exact hy

theorem fmtQ_no_underscore (q : Qd) : '_' ∉ (fmtQ q).data := by
  unfold fmtQ
  refine no_underscore_ite (by decide) (no_underscore_ite ?_ ?_)
  · exact no_underscore_append (no_underscore_ite (by decide) (by decide))
      (sciStr_no_underscore _ _ _)
  · exact no_underscore_append (no_underscore_ite (by decide) (by decide))
      (by decide)

theorem Qd.eqv_not_lt {a b : Qd} (h : a.eqv b) : ¬ a.lt b := by
  unfold Qd.eqv at h
  unfold Qd.lt
  omega

/-- addActivityToAccount writes only at args[1]. -/
theorem addAct_state_at (rf : String → Bool) (s : Store) (a0 a1 : String)
    (rest : List String) (k : String) (hk : k ≠ a1) :
    (addActivityToAccount rf s (a0 :: a1 :: rest)).2 k = s k := by
  unfold addActivityToAccount
  cases hg : getState rf s a0 with
  | none => simp [hg]
  | some v =>
    simp only [hg]
    unfold putState
    rw [if_neg hk]

/-- addActivityToAccount never panics. -/
theorem addAct_no_panic (rf : String → Bool) (s : Store) (args : List String) :
    (addActivityToAccount rf s args).1 ≠ .panic := by
  unfold addActivityToAccount
  split
  · cases hg : getState rf s _ <;> simp [hg]
  · simp

/-- settle_bill writes only at args[0] and at a formatted-number key. -/
theorem settle_state_at (rf : String → Bool) (today : String) (s : Store)
    (a0 a1 : String) (rest : List String) (k : String) (hk0 : k ≠ a0)
    (hku : '_' ∈ k.data) :
    (settle_bill rf today s (a0 :: a1 :: rest)).2 k = s k := by
  unfold settle_bill
  cases hg : getState rf s a0 with
  | none => simp [hg]
  | some v =>
    simp only [hg]
    cases hmd : monthDiff (unmarshalLic v).lastSettlementDate today with
    | none => simp [hmd]
    | some m =>
      simp only [hmd]
      unfold putState
      rw [if_neg hk0]
      exact addAct_state_at rf s a1 _ [] k (fun h => fmtQ_no_underscore _ (h ▸ hku))

/-- With a readable stored license whose dates are well-formed, settle_bill
succeeds. -/
theorem settle_success (rf : String → Bool) (today : String) (s : Store)
    (a0 a1 : String) (rest : List String) (L : License) (hrf : rf a0 = false)
    (hs : s a0 = some (.lic L)) (hl : 10 ≤ L.lastSettlementDate.data.length)
    (ht : 10 ≤ today.data.length) :
    (settle_bill rf today s (a0 :: a1 :: rest)).1 = .success := by
  have hget : getState rf s a0 = some (some (.lic L)) := by
    unfold getState; simp [hrf, hs]
  obtain ⟨m, hm⟩ :=
    monthDiff_isSome (a := L.lastSettlementDate) (b := today) hl ht
  unfold settle_bill
  simp only [hget, unmarshalLic, hm]

/-- create_license writes only at its derived key and the license index. -/
theorem create_license_state_at (rf : String → Bool) (s : Store)
    (b0 b1 b2 b3 b4 b5 b6 b7 b8 b9 b10 k : String)
    (hk1 : k ≠ b0 ++ "_" ++ b1) (hk2 : k ≠ LicenseIndexStr) :
    (create_license rf s [b0, b1, b2, b3, b4, b5, b6, b7, b8, b9, b10]).2 k = s k := by
  unfold create_license
  simp only
  cases hp2 : parseQ b2 with
  | none => rfl
  | some q =>
    simp only [hp2]
    cases hp3 : parseQ b3 with
    | none => rfl
    | some pr =>
      simp only [hp3]
      cases hp4 : parseQ b4 with
      | none => rfl
      | some fee =>
        simp only [hp4]
        cases hg : getState rf s (b0 ++ "_" ++ b1) with
        | none => rfl
        | some v =>
          simp only [hg]
          split
          · rfl
          · cases hg2 : getState rf
                (putState (b0 ++ "_" ++ b1) _ s) LicenseIndexStr with
            | none =>
              simp only [hg2]
              unfold putState
              rw [if_neg hk1]
            | some iv =>
              simp only [hg2]
              unfold putState
              rw [if_neg hk2, if_neg hk1]

/-- create_license never increases the number of occurrences of a key other
than its derived key in the license index. -/
theorem create_license_index_count (rf : String → Bool) (s : Store)
    (b0 b1 b2 b3 b4 b5 b6 b7 b8 b9 b10 k : String)
    (hk : k ≠ b0 ++ "_" ++ b1) :
    (unmarshalIdx ((create_license rf s
        [b0, b1, b2, b3, b4, b5, b6, b7, b8, b9, b10]).2 LicenseIndexStr)).count k ≤
      (unmarshalIdx (s LicenseIndexStr)).count k := by
  unfold create_license
  simp only
  cases hp2 : parseQ b2 with
  | none => exact le_refl _
  | some q =>
    simp only [hp2]
    cases hp3 : parseQ b3 with
    | none => exact le_refl _
    | some pr =>
      simp only [hp3]
      cases hp4 : parseQ b4 with
      | none => exact le_refl _
      | some fee =>
        simp only [hp4]
        cases hg : getState rf s (b0 ++ "_" ++ b1) with
        | none => exact le_refl _
        | some v =>
          simp only [hg]
          split
          · exact le_refl _
          · cases hg2 : getState rf
                (putState (b0 ++ "_" ++ b1) _ s) LicenseIndexStr with
            | none =>
              simp only [hg2]
              unfold putState
              by_cases hik : LicenseIndexStr = b0 ++ "_" ++ b1
              · rw [if_pos hik]; simp [unmarshalIdx]
              · rw [if_neg hik]
            | some iv =>
              simp only [hg2]
              have hiv : iv = putState (b0 ++ "_" ++ b1)
                  (.lic { licenseKey := b0 ++ "_" ++ b1, licensePartNo := b0,
                          baseEntityCode := b1, quantity := q, licensePrice := pr,
                          supportFee := fee, licenseStartDate := b5,
                          licenseEndDate := b6, supportStartDate := b7,
                          supportEndDate := b8, currency := b9,
                          lastSettlementDate := b10 }) s LicenseIndexStr := by
                unfold getState at hg2
                split at hg2
                · exact Option.noConfusion hg2
                · injection hg2 with hg2
                  exact hg2.symm
              unfold putState
              rw [if_pos rfl]
              show ((unmarshalIdx iv ++ [b0 ++ "_" ++ b1]).count k) ≤ _
              rw [List.count_append]
              have h0 : ([b0 ++ "_" ++ b1].count k) = 0 := by
                simp [List.count_singleton]
                intro hc
                exact absurd hc.symm hk
              rw [h0, Nat.add_zero, hiv]
              unfold putState
              by_cases hik : LicenseIndexStr = b0 ++ "_" ++ b1
              · rw [if_pos hik]; simp [unmarshalIdx]
              · rw [if_neg hik]

/-- The full effect of delete_license with a working index read. -/
theorem delete_license_effect (rf : String → Bool) (s : Store) (k : String)
    (hrf : rf LicenseIndexStr = false) (hk : k ≠ LicenseIndexStr) :
    (delete_license rf s [k]).1 = .success ∧
    (delete_license rf s [k]).2 k = none ∧
    (delete_license rf s [k]).2 LicenseIndexStr =
      some (.idx (removeFirst (unmarshalIdx (s LicenseIndexStr)) k)) := by
  unfold delete_license
  simp only
  have hg : getState rf (delState k s) LicenseIndexStr =
      some (s LicenseIndexStr) := by
    unfold getState delState
    rw [if_neg (by simp [hrf]), if_neg (Ne.symm hk)]
  simp only [hg]
  refine ⟨trivial, ?_, ?_⟩
  · unfold putState delState
    rw [if_neg hk, if_pos rfl]
  · unfold putState
    rw [if_pos rfl]

/-- Removing the first occurrence of a key that occurs at most once leaves a
list without that key. -/
theorem removeFirst_not_mem {l : List String} {k : String}
    (h : l.count k ≤ 1) : k ∉ removeFirst l k := by
  induction l with
  | nil => simp [removeFirst]
  | cons x xs ih =>
    unfold removeFirst
    by_cases hx : x = k
    · rw [if_pos hx]
      intro hm
      rw [List.count_cons] at h
      have hc : xs.count k = 0 := by
        subst hx
        simp at h
        omega
      rw [← List.count_pos_iff] at hm
      omega
    · rw [if_neg hx]
      intro hm
      rcases List.mem_cons.mp hm with hm | hm
      · exact hx hm.symm
      · have hle : xs.count k ≤ 1 := by
          rw [List.count_cons] at h
          omega
        exact ih hle hm

/-- Posting the amount string "0E+00" leaves the record stored at the read
account key with exactly its prior content. -/
theorem addAct_zero_at (rf : String → Bool) (s : Store) (acctKey : String)
    (A : IntercompanyAccount) (hacct : s acctKey = some (.acc A)) :
    (addActivityToAccount rf s [acctKey, "0E+00"]).2 acctKey = some (.acc A) := by
  unfold addActivityToAccount
  by_cases hrf : rf acctKey
  · simp [getState, hrf, hacct]
  · have hget : getState rf s acctKey = some (some (.acc A)) := by
      unfold getState; simp [hrf, hacct]
    have hamt : parseQD "0E+00" = Qd.ofInt 0 := by decide
    simp only [hget, hamt, unmarshalAcc, Qd.add_ofInt_zero]
    unfold putState
    by_cases hk : acctKey = "0E+00" <;> simp [hk, hacct]

/-! ### Claim theorems -/

/-- C5: a settle_bill call with no elapsed month difference since the last
settlement (the license's lastSettlementDate already equals today, the
state after a first same-day call) computes months = 0 and a zero support
charge, and the account record — its activity and periodToDateBalance —
is exactly what it was before the call. -/
theorem c5_settle_bill_same_day_idempotent (rf : String → Bool)
    (today licKey acctKey : String) (s : Store) (L : License)
    (A : IntercompanyAccount) (hrf : rf licKey = false)
    (hs : s licKey = some (.lic L)) (hdate : L.lastSettlementDate = today)
    (hlen : 10 ≤ today.data.length) (hacct : s acctKey = some (.acc A)) :
    (settle_bill rf today s [licKey, acctKey]).1 = .success ∧
    (settle_bill rf today s [licKey, acctKey]).2 acctKey = some (.acc A) := by
  have hne : acctKey ≠ licKey := by
    intro h
    rw [h, hs] at hacct
    simp at hacct
  have hget : getState rf s licKey = some (some (.lic L)) := by
    unfold getState; simp [hrf, hs]
  have hmd : monthDiff (unmarshalLic (some (.lic L))).lastSettlementDate today =
      some 0 := by
    show monthDiff L.lastSettlementDate today = some 0
    rw [hdate]; exact monthDiff_self hlen
  have hchn :
      ((((unmarshalLic (some (.lic L))).supportFee *
        (unmarshalLic (some (.lic L))).quantity).mul (Qd.ofInt 0)).divNat 12).n = 0 := by
    rw [Qd.divNat_n, Qd.mul_n]
    simp [Qd.ofInt]
  unfold settle_bill
  simp only [hget, hmd, fmtQ_of_n_zero hchn]
  constructor
  · trivial
  · show putState licKey _ (addActivityToAccount rf s [acctKey, "0E+00"]).2 acctKey =
      some (.acc A)
    unfold putState
    rw [if_neg hne]
    exact addAct_zero_at rf s acctKey A hacct

/-- Witness for C5: a second same-day settlement of the scenario license
leaves the account "ACC" untouched. -/
theorem c5_settle_bill_same_day_idempotent_witness :
    (settle_bill noRF "06-01-2024" storeC5 ["P1_E1", "ACC"]).1 = .success ∧
    (settle_bill noRF "06-01-2024" storeC5 ["P1_E1", "ACC"]).2 "ACC" =
      some (.acc acctACC) :=
  c5_settle_bill_same_day_idempotent noRF "06-01-2024" "P1_E1" "ACC" storeC5
    licSettled acctACC (by decide) (by decide) (by decide) (by decide) (by decide)

/-- C2: transfer_license with a transferQuantity strictly greater than the
stored source license's quantity fails with the insufficient-quantity error
"No enough license to transfer" and performs no writes: the returned world
state is exactly the state before the call, at every key. -/
theorem c2_insufficient_quantity_no_writes (rf : String → Bool)
    (today : String) (s : Store) (a0 a1 a2 a3 a4 a5 a6 : String) (L : License)
    (t : Qd) (hrf : rf a0 = false) (hs : s a0 = some (.lic L))
    (hstart : 10 ≤ L.licenseStartDate.data.length)
    (htoday : 10 ≤ today.data.length)
    (hparse : parseQ a2 = some t) (hqt : L.quantity.lt t) :
    transfer_license rf today s [a0, a1, a2, a3, a4, a5, a6] =
      (.error "No enough license to transfer", s) := by
  have hget : getState rf s a0 = some (some (.lic L)) := by
    unfold getState; simp [hrf, hs]
  obtain ⟨m, hm⟩ :=
    monthDiff_isSome (a := L.licenseStartDate) (b := today) hstart htoday
  unfold transfer_license
  simp only [hget, unmarshalLic, hm, hparse]
  rw [if_pos hqt]

theorem accInvariant_zero : accInvariant zeroAccount := by decide

theorem accInvariant_add (A : IntercompanyAccount) (m : Qd)
    (h : accInvariant A) :
    accInvariant { A with activity := A.activity + m,
                          periodToDateBalance := A.periodToDateBalance + m } := by
  unfold accInvariant Qd.eqv at *
  simp only [Qd.add_n, Qd.add_d] at *
  push_cast at *
  linear_combination ((m.d : Int)) ^ 2 * h

theorem accInvariant_roll (A : IntercompanyAccount) (p : String) :
    accInvariant { A with period := p,
                          openingBalance := A.periodToDateBalance,
                          activity := Qd.zero } := by
  unfold accInvariant Qd.eqv
  simp only [Qd.add_n, Qd.add_d, Qd.zero, Qd.ofInt]
  push_cast
  ring

theorem accInvariant_create (o a : Qd) (A : IntercompanyAccount)
    (hA : A.openingBalance = o) (hAct : A.activity = a)
    (hP : A.periodToDateBalance = o + a) : accInvariant A := by
  unfold accInvariant Qd.eqv
  rw [hA, hAct, hP]

theorem storeAccInvariant_put {s : Store} (h : storeAccInvariant s)
    (k : String) {v : Val} (hv : ∀ a, v = .acc a → accInvariant a) :
    storeAccInvariant (putState k v s) := by
  intro k2 a ha
  unfold putState at ha
  by_cases hk : k2 = k
  · rw [if_pos hk] at ha
    injection ha with ha
    exact hv a ha
  · rw [if_neg hk] at ha
    exact h k2 a ha

/-- The account struct populated from a read always satisfies the balance
invariant when the store does. -/
theorem unmarshalAcc_inv {rf : String → Bool} {s : Store} {k : String}
    {v : Option Val} (h : storeAccInvariant s)
    (hg : getState rf s k = some v) : accInvariant (unmarshalAcc v) := by
  unfold getState at hg
  by_cases hrf : rf k
  · simp [hrf] at hg
  · rw [if_neg (by simp [hrf])] at hg
    injection hg with hg
    subst hg
    cases hv : s k with
    | none => exact accInvariant_zero
    | some w =>
      cases w with
      | acc a => exact h k a hv
      | str t => exact accInvariant_zero
      | lic l => exact accInvariant_zero
      | idx ks => exact accInvariant_zero

theorem addAct_preserves_inv (rf : String → Bool) (s : Store)
    (args : List String) (h : storeAccInvariant s) :
    storeAccInvariant (addActivityToAccount rf s args).2 := by
  unfold addActivityToAccount
  split
  · next a0 a1 rest =>
    cases hg : getState rf s a0 with
    | none => simpa using h
    | some v =>
      simp only [hg]
      refine storeAccInvariant_put h a1 ?_
      intro a ha
      injection ha with ha
      subst ha
      exact accInvariant_add (unmarshalAcc v) (parseQD a1) (unmarshalAcc_inv h hg)
  · exact h

/-- A one-argument next_period invocation commits nothing: every execution
path ends in an error or in the panic at `stub.PutState(args[1], ...)`. -/
theorem nextPer_commits_nothing (rf : String → Bool) (s : Store) (k : String) :
    commitResp s (next_period rf s [k]) = s := by
  unfold next_period
  cases hg : getState rf s k with
  | none => simp [hg, commitResp]
  | some v =>
    simp only [hg]
    cases h1 : goSlice (unmarshalAcc v).period 0 3 <;>
      cases h2 : goSlice (unmarshalAcc v).period 4 6 <;>
      simp [commitResp]

theorem create_account_preserves_inv (rf : String → Bool) (s : Store)
    (args : List String) (h : storeAccInvariant s) :
    storeAccInvariant (create_account rf s args).2 := by
  unfold create_account
  split
  · next a0 a1 a2 a3 a4 a5 a6 a7 a8 a9 =>
    cases hp6 : parseQ a6 with
    | none => simpa using h
    | some ob =>
      simp only [hp6]
      cases hp7 : parseQ a7 with
      | none => simpa using h
      | some act =>
        simp only [hp7]
        cases hg : getState rf s (a0 ++ "_" ++ a1 ++ "_" ++ a8) with
        | none => simpa using h
        | some v =>
          simp only [hg]
          split
          · exact h
          · have h1 : storeAccInvariant
                (putState (a0 ++ "_" ++ a1 ++ "_" ++ a8)
                  (.acc { accountKey := a0 ++ "_" ++ a1 ++ "_" ++ a8,
                          dueToEntityCode := a0, dueFromEntityCode := a1,
                          dueToEntityName := a2, dueFromEntityName := a3,
                          currency := a4, period := a5, openingBalance := ob,
                          activity := act, periodToDateBalance := ob + act,
                          accountNo := a8, accountName := a9 }) s) := by
              refine storeAccInvariant_put h _ ?_
              intro a ha
              injection ha with ha
              subst ha
              exact accInvariant_create ob act _ rfl rfl rfl
            cases hg2 : getState rf
                (putState (a0 ++ "_" ++ a1 ++ "_" ++ a8) _ s) AccountIndexStr with
            | none => simpa using h1
            | some iv =>
              simp only [hg2]
              refine storeAccInvariant_put h1 AccountIndexStr ?_
              intro a ha
              exact absurd ha (by simp)
  · exact h

theorem applyAccountOp_preserves (rf : String → Bool) (k : String) (s : Store)
    (op : AccountOp) (h : storeAccInvariant s) :
    storeAccInvariant (applyAccountOp rf k s op) := by
  cases op with
  | addAct amt =>
    show storeAccInvariant (commitResp s (addActivityToAccount rf s [k, amt]))
    unfold commitResp
    by_cases hr : (addActivityToAccount rf s [k, amt]).1 = .success
    · rw [if_pos hr]; exact addAct_preserves_inv rf s [k, amt] h
    · rw [if_neg hr]; exact h
  | nextPer =>
    show storeAccInvariant (commitResp s (next_period rf s [k]))
    rw [nextPer_commits_nothing]
    exact h

theorem runAccountOps_preserves (rf : String → Bool) (k : String)
    (ops : List AccountOp) :
    ∀ s : Store, storeAccInvariant s →
      storeAccInvariant (runAccountOps rf k s ops) := by
  induction ops with
  | nil => intro s h; exact h
  | cons op ops ih =>
    intro s h
    unfold runAccountOps
    rw [List.foldl_cons]
    exact ih _ (applyAccountOp_preserves rf k s op h)

/-- C1: starting from any world state whose stored account records satisfy
`periodToDateBalance == openingBalance + activity`, after a create_account
call and the committed writes of any sequence of add_activity and
next_period operations on an account, every stored account record — in
particular the account's — still satisfies the invariant exactly. -/
theorem c1_balance_invariant (rf : String → Bool) (s : Store)
    (args : List String) (k : String) (ops : List AccountOp)
    (hs : storeAccInvariant s) :
    storeAccInvariant (runAccountOps rf k (create_account rf s args).2 ops) :=
  runAccountOps_preserves rf k ops _ (create_account_preserves_inv rf s args hs)

/-- Witness for C1: create the account, post 250, roll the period; every
stored account record still balances. -/
theorem c1_balance_invariant_witness :
    storeAccInvariant (runAccountOps noRF "E1_E2_100"
      (create_account noRF emptyStore cArgs).2
      [.addAct "250", .nextPer]) :=
  c1_balance_invariant noRF emptyStore cArgs "E1_E2_100"
    [.addAct "250", .nextPer]
    (fun _ _ ha => Option.noConfusion ha)

/-- Witness for C2: transferring 11 out of quantity 10 fails and leaves the
state exactly as it was. -/
theorem c2_insufficient_quantity_no_writes_witness :
    transfer_license noRF "06-01-2024" storeC4
      ["P1_E1", "E2", "11", "A1", "A2", "A3", "A4"] =
      (.error "No enough license to transfer", storeC4) :=
  c2_insufficient_quantity_no_writes noRF "06-01-2024" storeC4
    "P1_E1" "E2" "11" "A1" "A2" "A3" "A4" licP1E1 (Qd.ofInt 11)
    (by decide) (by decide) (by decide) (by decide) (by decide) (by decide)

/-- C8: for all date strings in the fixed `MM-DD-YYYY` textual form,
`month_diff` returns `(yearB - yearA) * 12 + (monthB - monthA)`, ignoring
the day component and preserving a negative result when dateB precedes
dateA (the result is computed in ℤ). -/
theorem c8_month_diff_formula (mA dA yA mB dB yB : Nat) (hmA : mA < 100)
    (hdA : dA < 100) (hyA1 : 1000 ≤ yA) (hyA2 : yA < 10000) (hmB : mB < 100)
    (hdB : dB < 100) (hyB1 : 1000 ≤ yB) (hyB2 : yB < 10000) :
    monthDiff (date2str mA dA yA) (date2str mB dB yB) =
      some (((yB : Int) - (yA : Int)) * 12 + ((mB : Int) - (mA : Int))) :=
  monthDiff_date2str mA dA yA mB dB yB hmA hdA hyA1 hyA2 hmB hdB hyB1 hyB2

/-- Witness for C8 at the two examples of the spec. -/
theorem c8_month_diff_formula_witness :
    monthDiff "01-01-2024" "03-01-2024" = some 2 ∧
    monthDiff "12-01-2023" "01-01-2024" = some 1 := by
  constructor
  · have h := c8_month_diff_formula 1 1 2024 3 1 2024 (by decide) (by decide)
      (by decide) (by decide) (by decide) (by decide) (by decide) (by decide)
    rw [show date2str 1 1 2024 = "01-01-2024" from by decide,
      show date2str 3 1 2024 = "03-01-2024" from by decide] at h
    rw [h]; norm_num
  · have h := c8_month_diff_formula 12 1 2023 1 1 2024 (by decide) (by decide)
      (by decide) (by decide) (by decide) (by decide) (by decide) (by decide)
    rw [show date2str 12 1 2023 = "12-01-2023" from by decide,
      show date2str 1 1 2024 = "01-01-2024" from by decide] at h
    rw [h]; norm_num

/-- C4: evidence that the claim fails on the code.  With the scenario
license (quantity 10, support fee 12, last settled 01-01-2024) and account
"ACC", settling on 06-01-2024 computes months = 5 and the charge
`12 * 10 * 5 / 12 = 50` and re-persists the license with
lastSettlementDate = today as claimed — but the updated account record is
written under the key "5E+01" (the formatted charge string, because
addActivityToAccount puts at args[1]), while the record at "ACC" is left
exactly as it was. -/
theorem c4_settle_bill_misposts_charge :
    (settle_bill noRF "06-01-2024" storeC4 ["P1_E1", "ACC"]).1 = .success ∧
    (settle_bill noRF "06-01-2024" storeC4 ["P1_E1", "ACC"]).2 "ACC" =
      some (.acc acctACC) ∧
    (settle_bill noRF "06-01-2024" storeC4 ["P1_E1", "ACC"]).2 "5E+01" =
      some (.acc { acctACC with activity := Qd.ofInt 50,
                                periodToDateBalance := Qd.ofInt 1050 }) ∧
    (settle_bill noRF "06-01-2024" storeC4 ["P1_E1", "ACC"]).2 "P1_E1" =
      some (.lic { licP1E1 with lastSettlementDate := "06-01-2024" }) :=
  ⟨by decide, by decide, by decide, by decide⟩

/-- C7: evidence that the claim fails on the code.  add_activity on a
stored account returns success but persists the updated record under the
amount argument "250" and leaves the account key "E1_E2_100" unchanged; on
an absent key it does not fail with NotFound but succeeds, writing a
zero-initialized record under the amount key "7". -/
theorem c7_add_activity_misdirected_put :
    (addActivityToAccount noRF storeC7 ["E1_E2_100", "250"]).1 = .success ∧
    (addActivityToAccount noRF storeC7 ["E1_E2_100", "250"]).2 "E1_E2_100" =
      some (.acc acctE12) ∧
    (addActivityToAccount noRF storeC7 ["E1_E2_100", "250"]).2 "250" =
      some (.acc { acctE12 with activity := Qd.ofInt 250,
                                periodToDateBalance := Qd.ofInt 1250 }) ∧
    (addActivityToAccount noRF storeC7 ["ABSENT", "7"]).1 = .success ∧
    (addActivityToAccount noRF storeC7 ["ABSENT", "7"]).2 "7" =
      some (.acc { zeroAccount with activity := Qd.ofInt 7,
                                    periodToDateBalance := Qd.ofInt 7 }) :=
  ⟨by decide, by decide, by decide, by decide, by decide⟩

/-- C6: evidence that the claim fails on the code.  On the spec scenario
account (period Jan-2024, periodToDateBalance 1250), a one-argument
next_period call panics at `stub.PutState(args[1], ...)` (index out of
range) and commits nothing; even when a second argument is supplied, the
updated record goes to that second key with period "Feb-20" — the year is
parsed from characters 4-6 of "Jan-2024" — instead of "Feb-2024" at the
account key. -/
theorem c6_next_period_bug :
    (next_period noRF storeC6 ["acct1"]).1 = .panic ∧
    (next_period noRF storeC6 ["acct1"]).2 = storeC6 ∧
    (next_period noRF storeC6 ["acct1", "other"]).2 "acct1" =
      some (.acc acctC6) ∧
    (next_period noRF storeC6 ["acct1", "other"]).2 "other" =
      some (.acc { acctC6 with period := "Feb-20",
                               openingBalance := Qd.ofInt 1250,
                               activity := Qd.zero }) :=
  ⟨by decide, rfl, by decide, by decide⟩

/-- All results of create_account: success, the error issued after the
record put (failed index read), or an untouched state. -/
theorem create_account_error_shapes (rf : String → Bool) (s : Store)
    (args : List String) :
    (create_account rf s args).1 = .success ∨
    (create_account rf s args).1 = .error "Failed to get user index" ∨
    (create_account rf s args).2 = s := by
  unfold create_account
  split
  · next a0 a1 a2 a3 a4 a5 a6 a7 a8 a9 =>
    cases hp6 : parseQ a6 with
    | none => simp
    | some ob =>
      simp only [hp6]
      cases hp7 : parseQ a7 with
      | none => simp
      | some act =>
        simp only [hp7]
        cases hg : getState rf s (a0 ++ "_" ++ a1 ++ "_" ++ a8) with
        | none => simp
        | some v =>
          simp only [hg]
          split
          · simp
          · cases hg2 : getState rf
                (putState (a0 ++ "_" ++ a1 ++ "_" ++ a8) _ s) AccountIndexStr with
            | none => simp [hg2]
            | some iv => simp [hg2]
  · simp

/-- All results of create_license: success, the error issued after the
record put (failed index read), or an untouched state. -/
theorem create_license_error_shapes (rf : String → Bool) (s : Store)
    (args : List String) :
    (create_license rf s args).1 = .success ∨
    (create_license rf s args).1 = .error "Failed to get license index" ∨
    (create_license rf s args).2 = s := by
  unfold create_license
  split
  · next a0 a1 a2 a3 a4 a5 a6 a7 a8 a9 a10 =>
    cases hp2 : parseQ a2 with
    | none => simp
    | some q =>
      simp only [hp2]
      cases hp3 : parseQ a3 with
      | none => simp
      | some pr =>
        simp only [hp3]
        cases hp4 : parseQ a4 with
        | none => simp
        | some fee =>
          simp only [hp4]
          cases hg : getState rf s (a0 ++ "_" ++ a1) with
          | none => simp
          | some v =>
            simp only [hg]
            split
            · simp
            · cases hg2 : getState rf
                  (putState (a0 ++ "_" ++ a1) _ s) LicenseIndexStr with
              | none => simp [hg2]
              | some iv => simp [hg2]
  · simp

/-- C10 counterexample: with a transport failure on the account-index read
and valid arguments on a fresh store, create_account returns an error — yet
it has already issued the put of the account record: the derived key
"E1_E2_100" holds the new record after the failed call. -/
theorem c10_error_after_put_counterexample :
    (create_account rfIndexFail emptyStore cArgs).1 =
      .error "Failed to get user index" ∧
    (create_account rfIndexFail emptyStore cArgs).2 "E1_E2_100" =
      some (.acc { accountKey := "E1_E2_100", dueToEntityCode := "E1",
                   dueFromEntityCode := "E2", dueToEntityName := "Alpha",
                   dueFromEntityName := "Beta", currency := "USD",
                   period := "Jan-2024", openingBalance := Qd.ofInt 1000,
                   activity := Qd.ofInt 0,
                   periodToDateBalance := Qd.ofInt 1000 + Qd.ofInt 0,
                   accountNo := "100", accountName := "IC" }) :=
  ⟨by decide, by decide⟩

/-- C10 amended: every error return of create_account other than the
account-index read failure — wrong argument count, a non-numeric amount, a
failed read of the derived key, a record already present — and likewise for
create_license, is issued before any put: the world state comes back
exactly as it was.  When the index read fails, the error is returned after
the entity record's put has been issued. -/
theorem c10_errors_before_any_put (rf : String → Bool) (s : Store)
    (args : List String) :
    (∀ msg, (create_account rf s args).1 = .error msg →
      msg ≠ "Failed to get user index" → (create_account rf s args).2 = s) ∧
    (∀ msg, (create_license rf s args).1 = .error msg →
      msg ≠ "Failed to get license index" → (create_license rf s args).2 = s) := by
  constructor
  · intro msg h1 h2
    rcases create_account_error_shapes rf s args with h | h | h
    · rw [h1] at h; exact absurd h (by simp)
    · rw [h1] at h; injection h with h; exact absurd h h2
    · exact h
  · intro msg h1 h2
    rcases create_license_error_shapes rf s args with h | h | h
    · rw [h1] at h; exact absurd h (by simp)
    · rw [h1] at h; injection h with h; exact absurd h h2
    · exact h

/-- Witness for C10 (amended): a wrong-argument-count call of either create
operation returns the state untouched. -/
theorem c10_errors_before_any_put_witness :
    (create_account noRF emptyStore []).2 = emptyStore ∧
    (create_license noRF emptyStore []).2 = emptyStore :=
  ⟨(c10_errors_before_any_put noRF emptyStore []).1
      "Incorrect number of arguments. Expecting 10" (by decide) (by decide),
    (c10_errors_before_any_put noRF emptyStore []).2
      "Incorrect number of arguments. Expecting 11" (by decide) (by decide)⟩

/-- C9 counterexample: from the initialized state, create the account
"E1_E2_100", call delete_license on that account key (it deletes any key
from the store but repairs only the license index), then create the account
again.  The second create succeeds and appends the key a second time, so
_accountindex holds a duplicate; between the two creates the account index
still listed the deleted record. -/
theorem c9_index_duplicate_counterexample :
    (create_account noRF c9s3 cArgs).1 = .success ∧
    unmarshalIdx (c9s4 AccountIndexStr) = ["E1_E2_100", "E1_E2_100"] ∧
    ¬ (unmarshalIdx (c9s4 AccountIndexStr)).Nodup ∧
    c9s3 "E1_E2_100" = none ∧
    unmarshalIdx (c9s3 AccountIndexStr) = ["E1_E2_100"] :=
  ⟨by decide, by decide, by decide, by decide, by decide⟩

/-- C9 amended: the maintained behavior is append-on-successful-create —
unconditionally, with no membership check, so an already-present key is
appended again — and remove-first-occurrence on delete_license, which
touches only the license index whatever key it deletes; insertion order is
preserved. -/
theorem c9_index_append_remove :
    (∀ (rf : String → Bool) (s : Store) (a0 a1 a2 a3 a4 a5 a6 a7 a8 a9 : String),
      (create_account rf s [a0, a1, a2, a3, a4, a5, a6, a7, a8, a9]).1 = .success →
      a0 ++ "_" ++ a1 ++ "_" ++ a8 ≠ AccountIndexStr →
      (create_account rf s [a0, a1, a2, a3, a4, a5, a6, a7, a8, a9]).2 AccountIndexStr =
        some (.idx (unmarshalIdx (s AccountIndexStr) ++ [a0 ++ "_" ++ a1 ++ "_" ++ a8]))) ∧
    (∀ (rf : String → Bool) (s : Store) (k : String),
      rf LicenseIndexStr = false → k ≠ LicenseIndexStr →
      (delete_license rf s [k]).2 LicenseIndexStr =
        some (.idx (removeFirst (unmarshalIdx (s LicenseIndexStr)) k)) ∧
      (delete_license rf s [k]).2 k = none) := by
  constructor
  · intro rf s a0 a1 a2 a3 a4 a5 a6 a7 a8 a9 hsucc hkey
    revert hsucc
    unfold create_account
    simp only
    cases hp6 : parseQ a6 with
    | none => intro hsucc; simp at hsucc
    | some ob =>
      cases hp7 : parseQ a7 with
      | none => intro hsucc; simp at hsucc
      | some act =>
        cases hg : getState rf s (a0 ++ "_" ++ a1 ++ "_" ++ a8) with
        | none => intro hsucc; simp at hsucc
        | some v =>
          simp only
          split
          · intro hsucc; simp at hsucc
          · cases hg2 : getState rf
                (putState (a0 ++ "_" ++ a1 ++ "_" ++ a8) _ s) AccountIndexStr with
            | none => intro hsucc; simp at hsucc
            | some iv =>
              intro _
              have hiv : iv = s AccountIndexStr := by
                unfold getState at hg2
                split at hg2
                · exact Option.noConfusion hg2
                · injection hg2 with hg2
                  rw [← hg2]
                  unfold putState
                  rw [if_neg (fun h => hkey h.symm)]
              rw [hiv]
              simp [putState]
  · intro rf s k hrf hk
    unfold delete_license
    simp only
    have hg : getState rf (delState k s) LicenseIndexStr =
        some (s LicenseIndexStr) := by
      unfold getState delState
      rw [if_neg (by simp [hrf]), if_neg (Ne.symm hk)]
    simp only [hg]
    constructor
    · unfold putState
      rw [if_pos rfl]
    · unfold putState delState
      rw [if_neg hk, if_pos rfl]

/-- Witness for C9 (amended): the create of "E1_E2_100" appends it to the
account index, and the delete_license removes the first occurrence and the
record. -/
theorem c9_index_append_remove_witness :
    (create_account noRF c9s1 cArgs).2 AccountIndexStr =
      some (.idx (unmarshalIdx (c9s1 AccountIndexStr) ++ ["E1_E2_100"])) ∧
    (delete_license noRF c9s2 ["E1_E2_100"]).2 LicenseIndexStr =
      some (.idx (removeFirst (unmarshalIdx (c9s2 LicenseIndexStr)) "E1_E2_100")) ∧
    (delete_license noRF c9s2 ["E1_E2_100"]).2 "E1_E2_100" = none := by
  refine ⟨?_, ?_, ?_⟩
  · exact (c9_index_append_remove).1 noRF c9s1 "E1" "E2" "Alpha" "Beta" "USD"
      "Jan-2024" "1000" "0" "100" "IC" (by decide) (by decide)
  · exact ((c9_index_append_remove).2 noRF c9s2 "E1_E2_100" (by decide)
      (by decide)).1
  · exact ((c9_index_append_remove).2 noRF c9s2 "E1_E2_100" (by decide)
      (by decide)).2


theorem unmarshalLic_lic (l : License) : unmarshalLic (some (.lic l)) = l := rfl

theorem putState_ne (k : String) (v : Val) (s : Store) (k2 : String)
    (h : k2 ≠ k) : putState k v s k2 = s k2 := by
  unfold putState; rw [if_neg h]

theorem addAct_fmt_preserves (rf : String → Bool) (s : Store) (a0c : String)
    (q : Qd) (k : String) (hku : '_' ∈ k.data) :
    (addActivityToAccount rf s [a0c, fmtQ q]).2 k = s k :=
  addAct_state_at rf s a0c (fmtQ q) [] k (fun h => fmtQ_no_underscore q (h ▸ hku))

theorem success_ne_panic : (Resp.success = Resp.panic) = False := by simp

theorem unmarshalLic_key_lic {v : Option Val} {key : String}
    (hk : (unmarshalLic v).licenseKey = key) (hu : '_' ∈ key.data) :
    ∃ L2, v = some (.lic L2) := by
  cases v with
  | none =>
    have h0 : (unmarshalLic (none : Option Val)).licenseKey = "" := rfl
    rw [h0] at hk; rw [← hk] at hu; exact absurd hu (by decide)
  | some w =>
    cases w with
    | lic l => exact ⟨l, rfl⟩
    | str u =>
      have h0 : (unmarshalLic (some (.str u))).licenseKey = "" := rfl
      rw [h0] at hk; rw [← hk] at hu; exact absurd hu (by decide)
    | acc a =>
      have h0 : (unmarshalLic (some (.acc a))).licenseKey = "" := rfl
      rw [h0] at hk; rw [← hk] at hu; exact absurd hu (by decide)
    | idx ks =>
      have h0 : (unmarshalLic (some (.idx ks))).licenseKey = "" := rfl
      rw [h0] at hk; rw [← hk] at hu; exact absurd hu (by decide)

theorem transfer_tail_ite (rf : String → Bool) (today : String) (sB : Store)
    (a0 a5 : String) (L : License)
    (hrf0 : rf a0 = false) (hrfI : rf LicenseIndexStr = false)
    (hKidx : a0 ≠ LicenseIndexStr) (hKu : '_' ∈ a0.data)
    (hsB0 : sB a0 = some (.lic L))
    (hlast : 10 ≤ L.lastSettlementDate.data.length)
    (htoday : 10 ≤ today.data.length)
    (hcountB : (unmarshalIdx (sB LicenseIndexStr)).count a0 ≤ 1) :
    (if (settle_bill rf today sB [a0, a5]).1 = Resp.panic then
        ((Resp.panic, (settle_bill rf today sB [a0, a5]).2) : Resp × Store)
      else
        (Resp.success,
          (delete_license rf (settle_bill rf today sB [a0, a5]).2 [a0]).2)).1
        = .success ∧
    (if (settle_bill rf today sB [a0, a5]).1 = Resp.panic then
        ((Resp.panic, (settle_bill rf today sB [a0, a5]).2) : Resp × Store)
      else
        (Resp.success,
          (delete_license rf (settle_bill rf today sB [a0, a5]).2 [a0]).2)).2 a0
        = none ∧
    a0 ∉ unmarshalIdx
      ((if (settle_bill rf today sB [a0, a5]).1 = Resp.panic then
          ((Resp.panic, (settle_bill rf today sB [a0, a5]).2) : Resp × Store)
        else
          (Resp.success,
            (delete_license rf (settle_bill rf today sB [a0, a5]).2 [a0]).2)).2
        LicenseIndexStr) := by
  have h1 := settle_success rf today sB a0 a5 [] L hrf0 hsB0 hlast htoday
  rw [if_neg (show ¬(settle_bill rf today sB [a0, a5]).1 = Resp.panic by
    simp [h1])]
  have hIdxPres : (settle_bill rf today sB [a0, a5]).2 LicenseIndexStr =
      sB LicenseIndexStr :=
    settle_state_at rf today sB a0 a5 [] LicenseIndexStr
      (fun h => hKidx h.symm) (by decide)
  obtain ⟨hd1, hd2, hd3⟩ :=
    delete_license_effect rf (settle_bill rf today sB [a0, a5]).2 a0 hrfI hKidx
  refine ⟨rfl, hd2, ?_⟩
  show a0 ∉ unmarshalIdx
    ((delete_license rf (settle_bill rf today sB [a0, a5]).2 [a0]).2 LicenseIndexStr)
  rw [hd3]
  show a0 ∉ removeFirst
    (unmarshalIdx ((settle_bill rf today sB [a0, a5]).2 LicenseIndexStr)) a0
  rw [hIdxPres]
  exact removeFirst_not_mem hcountB

/-- C3: a successful transfer_license whose transferQuantity equals the
stored source license's quantity (Go float equality) deletes the source
license: afterwards its key holds no record in the store and it no longer
occurs in the _licenseindex list.  The hypotheses pin down the well-formed
situation: readable keys, MM-DD-YYYY dates, an entity key containing an
underscore (every derived key does), a target key distinct from the source
key and the index key, and a source key indexed at most once. -/
theorem c3_full_transfer_deletes_source (rf : String → Bool) (today : String)
    (s : Store) (a0 a1 a2 a3 a4 a5 a6 : String) (L : License) (t : Qd)
    (hrf0 : rf a0 = false)
    (hrfN : rf (L.licensePartNo ++ "_" ++ a1) = false)
    (hrfI : rf LicenseIndexStr = false)
    (hs : s a0 = some (.lic L))
    (hlsd : 10 ≤ L.licenseStartDate.data.length)
    (hlast : 10 ≤ L.lastSettlementDate.data.length)
    (htoday : 10 ≤ today.data.length)
    (hB : ∀ L2, s (L.licensePartNo ++ "_" ++ a1) = some (.lic L2) →
      10 ≤ L2.lastSettlementDate.data.length)
    (hparse : parseQ a2 = some t) (heqv : L.quantity.eqv t)
    (hKu : '_' ∈ a0.data)
    (hKidx : a0 ≠ LicenseIndexStr)
    (hNK : L.licensePartNo ++ "_" ++ a1 ≠ a0)
    (hNidx : L.licensePartNo ++ "_" ++ a1 ≠ LicenseIndexStr)
    (hcount : (unmarshalIdx (s LicenseIndexStr)).count a0 ≤ 1) :
    (transfer_license rf today s [a0, a1, a2, a3, a4, a5, a6]).1 = .success ∧
    (transfer_license rf today s [a0, a1, a2, a3, a4, a5, a6]).2 a0 = none ∧
    a0 ∉ unmarshalIdx
      ((transfer_license rf today s [a0, a1, a2, a3, a4, a5, a6]).2
        LicenseIndexStr) := by
  have hget : getState rf s a0 = some (some (.lic L)) := by
    unfold getState; simp [hrf0, hs]
  obtain ⟨m, hm⟩ := monthDiff_isSome (a := L.licenseStartDate) (b := today) hlsd htoday
  have hnotlt : ¬ L.quantity.lt t := Qd.eqv_not_lt heqv
  have hgetN : getState rf s (L.licensePartNo ++ "_" ++ a1) =
      some (s (L.licensePartNo ++ "_" ++ a1)) := by
    unfold getState; rw [if_neg (by simp [hrfN])]
  unfold transfer_license
  simp only [hget, unmarshalLic_lic, hm, hparse]
  rw [if_neg hnotlt]
  simp only [hgetN]
  by_cases hbr : (unmarshalLic (s (L.licensePartNo ++ "_" ++ a1))).licenseKey =
      L.licensePartNo ++ "_" ++ a1
  · rw [if_pos hbr]
    obtain ⟨L2, hsN⟩ := unmarshalLic_key_lic hbr (by simp [String.data_append])
    have hr1succ := settle_success rf today s (L.licensePartNo ++ "_" ++ a1) a6 []
      L2 hrfN hsN (hB L2 hsN) htoday
    simp only [hsN, unmarshalLic_lic, hr1succ, success_ne_panic, if_false, heqv,
      if_true]
    refine transfer_tail_ite rf today _ a0 a5 L hrf0 hrfI hKidx hKu ?_ hlast htoday ?_
    · rw [addAct_fmt_preserves rf _ a4 _ a0 hKu,
        addAct_fmt_preserves rf _ a3 _ a0 hKu,
        putState_ne _ _ _ _ (fun h => hNK h.symm),
        settle_state_at rf today s (L.licensePartNo ++ "_" ++ a1) a6 [] a0
          (fun h => hNK h.symm) hKu]
      exact hs
    · rw [addAct_fmt_preserves rf _ a4 _ LicenseIndexStr (by decide),
        addAct_fmt_preserves rf _ a3 _ LicenseIndexStr (by decide),
        putState_ne _ _ _ _ (fun h => hNidx h.symm),
        settle_state_at rf today s (L.licensePartNo ++ "_" ++ a1) a6 [] LicenseIndexStr
          (fun h => hNidx h.symm) (by decide)]
      exact hcount
  · rw [if_neg hbr]
    simp only [success_ne_panic, if_false, heqv, if_true]
    refine transfer_tail_ite rf today _ a0 a5 L hrf0 hrfI hKidx hKu ?_ hlast htoday ?_
    · rw [addAct_fmt_preserves rf _ a4 _ a0 hKu,
        addAct_fmt_preserves rf _ a3 _ a0 hKu,
        create_license_state_at rf s _ _ _ _ _ _ _ _ _ _ _ a0
          (fun h => hNK h.symm) hKidx]
      exact hs
    · rw [addAct_fmt_preserves rf _ a4 _ LicenseIndexStr (by decide),
        addAct_fmt_preserves rf _ a3 _ LicenseIndexStr (by decide)]
      exact le_trans (create_license_index_count rf s _ _ _ _ _ _ _ _ _ _ _ a0
        (fun h => hNK h.symm)) hcount


/-- Witness for C3: transferring the full quantity 10 of the scenario
license to entity E2 removes "P1_E1" from the store and the index. -/
theorem c3_full_transfer_deletes_source_witness :
    (transfer_license noRF "06-01-2024" storeC3
      ["P1_E1", "E2", "10", "A1", "A2", "A3", "A4"]).1 = .success ∧
    (transfer_license noRF "06-01-2024" storeC3
      ["P1_E1", "E2", "10", "A1", "A2", "A3", "A4"]).2 "P1_E1" = none ∧
    "P1_E1" ∉ unmarshalIdx
      ((transfer_license noRF "06-01-2024" storeC3
        ["P1_E1", "E2", "10", "A1", "A2", "A3", "A4"]).2 LicenseIndexStr) :=
  c3_full_transfer_deletes_source noRF "06-01-2024" storeC3 "P1_E1" "E2" "10"
    "A1" "A2" "A3" "A4" licP1E1 (Qd.ofInt 10) (by decide) (by decide)
    (by decide) (by decide) (by decide) (by decide) (by decide)
    (fun L2 h => by
      rw [show storeC3 (licP1E1.licensePartNo ++ "_" ++ "E2") = none from by decide] at h
      exact Option.noConfusion h)
    (by decide) (by decide) (by decide) (by decide) (by decide) (by decide)
    (by decide)

end Intercompany
